import Mathlib

/-!
# Verification of the sqldb schema deployment & dialect translation engine

This file gives a shallow embedding, in Lean, of the string-rewriting
translators, the error classifiers and the schema-update orchestrators of the
`sqldb` Go package, and proves (or refutes) the specification claims about
them.

Go strings are modelled as `List Char` (`GoStr`).  The Go standard library
functions used by the package (`strings.Contains`, `strings.Index`,
`strings.LastIndex`, `strings.Replace`, `strings.ReplaceAll`,
`strings.ToUpper`, `strings.ToLower`, and slicing `s[i:j]`) are embedded
one-for-one below.  Go slice expressions panic when an index is out of range;
a panicking computation is modelled as `none`, so a Go function whose body can
panic is embedded with result type `Option GoStr`.

`strings.ToUpper`/`strings.ToLower` are embedded by `Char.toUpper` /
`Char.toLower`, which agree with Go on ASCII input; every keyword the package
compares against is ASCII.
-/

set_option maxRecDepth 20000

abbrev GoStr := List Char

/-- Shorthand to write a `GoStr` as a string literal. -/
def gs (s : String) : GoStr := s.toList

/-- `strings.Index(s, sub)` (found case): the least index at which `sub`
occurs in `s` as a contiguous substring, `none` when there is no occurrence.
Go returns `0` for an empty `sub`, matched by `List.isPrefixOf [] = true`. -/
def goIndexOf? (s sub : GoStr) : Option Nat :=
  match s with
  | [] => if sub.isPrefixOf ([] : GoStr) then some 0 else none
  | c :: t => if sub.isPrefixOf (c :: t) then some 0 else (goIndexOf? t sub).map (· + 1)

/-- `strings.LastIndex(s, sub)` (found case): the greatest index at which
`sub` occurs in `s`, `none` when there is no occurrence. -/
def goLastIndexOf? (s sub : GoStr) : Option Nat :=
  match s with
  | [] => if sub.isPrefixOf ([] : GoStr) then some 0 else none
  | c :: t =>
    match goLastIndexOf? t sub with
    | some i => some (i + 1)
    | none => if sub.isPrefixOf (c :: t) then some 0 else none

/-- `strings.Index`, with Go's `-1` for "not found". -/
def goIndex (s sub : GoStr) : Int :=
  match goIndexOf? s sub with
  | some i => (i : Int)
  | none => -1

/-- `strings.LastIndex`, with Go's `-1` for "not found". -/
def goLastIndex (s sub : GoStr) : Int :=
  match goLastIndexOf? s sub with
  | some i => (i : Int)
  | none => -1

/-- `strings.Contains(s, sub)`. -/
def goContains (s sub : GoStr) : Bool := (goIndexOf? s sub).isSome

/-- Go slice `s[:i]` with an `Int` index: panics (`none`) unless
`0 ≤ i ≤ len(s)`. -/
def goSliceTo (s : GoStr) (i : Int) : Option GoStr :=
  if 0 ≤ i ∧ i ≤ (s.length : Int) then some (s.take i.toNat) else none

/-- Go slice `s[i:]` with an `Int` index: panics (`none`) unless
`0 ≤ i ≤ len(s)`. -/
def goSliceFrom (s : GoStr) (i : Int) : Option GoStr :=
  if 0 ≤ i ∧ i ≤ (s.length : Int) then some (s.drop i.toNat) else none

/-- `strings.Replace(s, old, new, 1)`: replace the first occurrence of `old`
by `new`.  For an empty `old`, Go matches at the beginning of the string,
which the `goIndexOf?` result `some 0` reproduces. -/
def goReplace1 (s old new : GoStr) : GoStr :=
  match goIndexOf? s old with
  | none => s
  | some i => s.take i ++ new ++ s.drop (i + old.length)

/-- Left-to-right non-overlapping replacement, fuelled.  One unit of fuel is
spent per occurrence replaced; for a non-empty `old`, `s.length + 1` fuel is
always sufficient because every replacement consumes at least one character
of the remaining input. -/
def goReplaceFueled (old new : GoStr) : Nat → GoStr → GoStr
  | 0, s => s
  | fuel + 1, s =>
    match goIndexOf? s old with
    | none => s
    | some i => s.take i ++ new ++ goReplaceFueled old new fuel (s.drop (i + old.length))

/-- `strings.ReplaceAll(s, old, new)`.  For an empty `old`, Go inserts `new`
before the string and after every character; every call site in the package
passes a non-empty `old`, for which the fuelled scan below is exact. -/
def goReplaceAll (s old new : GoStr) : GoStr :=
  if old.isEmpty then new ++ s.foldr (fun c acc => c :: (new ++ acc)) []
  else goReplaceFueled old new (s.length + 1) s

/-- `strings.ToUpper`, restricted to ASCII case mapping. -/
def goToUpper (s : GoStr) : GoStr := s.map Char.toUpper

/-- `strings.ToLower`, restricted to ASCII case mapping. -/
def goToLower (s : GoStr) : GoStr := s.map Char.toLower

/-!
## Dialect translators

Embeddings of the translator functions named by the claims, one per source
function.  Loops that Go writes as `for { ... }` are fuelled; `none` models a
run that panics or exceeds the fuel (for the translation entry points the
fuel supplied is sufficient for every terminating run, see
`typeEraseStep_length_lt`).
-/

/-- One iteration of the `VARCHAR(...)`/`DECIMAL(...)` erasure loop in
`TranslateMariaDBToSQLite` (`translators.go` lines 100-119 and 123-142):
find the keyword, scan to the first `)` at or after it (Go's
`strings.Index(query[start:], ")") + 1 + start`, which is `start` itself when
there is no `)`), and replace the first occurrence of that span.  The guard
`strings.Contains` is checked by the caller, so the `none` branch of
`goIndexOf?` is unreachable there. -/
def typeEraseStep (searchFor swapWith : GoStr) (query : GoStr) : GoStr :=
  match goIndexOf? query searchFor with
  | none => query
  | some start =>
    let stop : Nat :=
      match goIndexOf? (query.drop start) (gs ")") with
      | none => start
      | some i => i + 1 + start
    let defn := (query.drop start).take (stop - start)
    goReplace1 query defn swapWith

/-- The `for { if !strings.Contains(query, searchFor) { break } ... }` loop of
`TranslateMariaDBToSQLite`, fuelled.  `none` means the fuel ran out while the
keyword was still present. -/
def typeEraseLoop (searchFor swapWith : GoStr) : Nat → GoStr → Option GoStr
  | 0, query => if goContains query searchFor then none else some query
  | fuel + 1, query =>
    if goContains query searchFor then
      typeEraseLoop searchFor swapWith fuel (typeEraseStep searchFor swapWith query)
    else some query

/-- `TranslateMariaDBToSQLite` (`translators.go` lines 33-155).  The primary
key removal block slices with `strings.LastIndex` results that can be `-1`
(panic, modelled `none`), and the two erasure loops can fail to terminate
(fuel exhaustion, modelled `none`); `query.length + 1` fuel is sufficient for
every terminating run because every iteration that terminates shortens the
string. -/
def TranslateMariaDBToSQLite (query0 : GoStr) : Option GoStr := do
  let query := goReplaceAll query0 (gs " INT ") (gs " INTEGER ")
  let query := goReplace1 query (gs "ID INTEGER NOT NULL AUTO_INCREMENT")
      (gs "ID INTEGER PRIMARY KEY AUTOINCREMENT NOT NULL")
  let query ←
    if goContains query (gs "PRIMARY KEY(ID)") then do
      let primaryKeyIndex := goIndex query (gs "PRIMARY KEY(ID)")
      let beforePrimaryKeyDeclaration ← goSliceTo query primaryKeyIndex
      let lastCommaIndex := goLastIndex beforePrimaryKeyDeclaration (gs ",")
      let front ← goSliceTo query lastCommaIndex
      let back ← goSliceFrom query (lastCommaIndex + 1)
      pure (goReplace1 (front ++ back) (gs "PRIMARY KEY(ID)") [])
    else pure query
  let query := goReplaceAll query (gs "DEFAULT UTC_TIMESTAMP") (gs "DEFAULT CURRENT_TIMESTAMP")
  let query := goReplaceAll query (gs "DATETIME") (gs "TEXT")
  let query := goReplaceAll query (gs "TINYBLOB") (gs "BLOB")
  let query := goReplaceAll query (gs "MEDIUMBLOB") (gs "BLOB")
  let query := goReplaceAll query (gs "LONGBLOB") (gs "BLOB")
  let query ← typeEraseLoop (gs "VARCHAR") (gs "TEXT") (query.length + 1) query
  let query ← typeEraseLoop (gs "DECIMAL") (gs "REAL") (query.length + 1) query
  let query := goReplaceAll query (gs " BOOLEAN") (gs " INTEGER")
  let query := goReplaceAll query (gs " BOOL") (gs " INTEGER")
  let query := goReplaceAll query (gs " DATE") (gs " TEXT")
  let query := goReplaceAll query (gs " TIME") (gs " TEXT")
  pure query

/-- `TFToSQLiteRemovePrimaryKeyDefinition` (`translate.go` lines 27-36).  The
body slices the named return value `out`, which is never assigned before
being read, so it still holds Go's zero value `""` when `out[:primaryKeyIndex]`
is evaluated. -/
def TFToSQLiteRemovePrimaryKeyDefinition (in_ : GoStr) : Option GoStr := do
  let out : GoStr := []
  let primaryKeyIndex := goIndex in_ (gs "PRIMARY KEY(ID)")
  let choppedQ ← goSliceTo out primaryKeyIndex
  let lastCommaIndex := goLastIndex choppedQ (gs ",")
  let front ← goSliceTo out lastCommaIndex
  let back ← goSliceFrom out (lastCommaIndex + 1)
  pure (goReplace1 (front ++ back) (gs "PRIMARY KEY(ID)") [])

/-- `TFMySQLToSQLiteRemovePrimaryKeyDefinition`
(`sqldb-translateCreateTable.go` lines 47-62): like the `translate.go`
variant but with `out = in` first and an early return when the clause is
absent.  `out[:lastCommaIndex]` still panics (`none`) when no comma precedes
the clause (`strings.LastIndex` returns `-1`). -/
def TFMySQLToSQLiteRemovePrimaryKeyDefinition (in_ : GoStr) : Option GoStr := do
  let out := in_
  let primaryKeyIndex := goIndex in_ (gs "PRIMARY KEY(ID)")
  if primaryKeyIndex == -1 then
    pure out
  else do
    let choppedQ ← goSliceTo out primaryKeyIndex
    let lastCommaIndex := goLastIndex choppedQ (gs ",")
    let front ← goSliceTo out lastCommaIndex
    let back ← goSliceFrom out (lastCommaIndex + 1)
    pure (goReplace1 (front ++ back) (gs "PRIMARY KEY(ID)") [])

/-- `TFMySQLToSQLiteReformatDatetime` (`sqldb-translateCreateTable.go` lines
82-87): `strings.Replace(in, "DATETIME", "TEXT", -1)`. -/
def TFMySQLToSQLiteReformatDatetime (in_ : GoStr) : GoStr :=
  goReplaceAll in_ (gs "DATETIME") (gs "TEXT")

/-- `TFMySQLToSQLiteReformatID` as defined in `sqldb-translators.go` lines
11-61 (a different function from the one of the same name in
`sqldb-translateCreateTable.go`).  On line 57 the source computes
`strings.ReplaceAll(query, "DATETIME", "TEXT")` but discards the result
(no assignment), so the DATETIME block leaves `query` unchanged; the
embedding therefore has no corresponding rewrite. -/
def TFMySQLToSQLiteReformatID_translators (query0 : GoStr) : Option GoStr := do
  if !(goContains query0 (gs "CREATE TABLE")) then
    pure query0
  else do
    let query :=
      if goContains query0 (gs "ID INT NOT NULL AUTO_INCREMENT") then
        goReplace1 query0 (gs "ID INT NOT NULL AUTO_INCREMENT")
          (gs "ID INTEGER PRIMARY KEY AUTOINCREMENT NOT NULL")
      else query0
    let query ←
      if goContains query (gs "PRIMARY KEY(ID)") then do
        let primaryKeyIndex := goIndex query (gs "PRIMARY KEY(ID)")
        let choppedQ ← goSliceTo query primaryKeyIndex
        let lastCommaIndex := goLastIndex choppedQ (gs ",")
        let front ← goSliceTo query lastCommaIndex
        let back ← goSliceFrom query (lastCommaIndex + 1)
        pure (goReplace1 (front ++ back) (gs "PRIMARY KEY(ID)") [])
      else pure query
    let query :=
      if goContains query (gs "DEFAULT UTC_TIMESTAMP") then
        goReplaceAll query (gs "DEFAULT UTC_TIMESTAMP") (gs "DEFAULT CURRENT_TIMESTAMP")
      else query
    -- DATETIME block (lines 54-58): `strings.ReplaceAll(query, "DATETIME",
    -- "TEXT")` is evaluated and its result discarded, so no rewrite happens.
    pure query

/-!
## Translator chain runners
-/

/-- `Config.RunDeployQueryTranslators` (`schema-deploy.go` lines 205-212):
`out = in; for _, t := range chain { out = t(out) }`. -/
def RunDeployQueryTranslators : List (GoStr → GoStr) → GoStr → GoStr
  | [], out => out
  | t :: ts, out => RunDeployQueryTranslators ts (t out)

/-- `Config.RunUpdateQueryTranslators` (`part_003` lines 153-160): same
threading shape as the deploy runner. -/
def RunUpdateQueryTranslators : List (GoStr → GoStr) → GoStr → GoStr
  | [], out => out
  | t :: ts, out => RunUpdateQueryTranslators ts (t out)

/-- Loop of the `Config.RunUpdateQueryTranslators` variant in
`sqldb-updateSchema.go` lines 124-130: each iteration assigns
`out = t(in)` — the ORIGINAL `in`, not the previous `out`. -/
def runUpdateQueryTranslatorsAuxUS (in_ : GoStr) : List (GoStr → GoStr) → GoStr → GoStr
  | [], out => out
  | t :: ts, _ => runUpdateQueryTranslatorsAuxUS in_ ts (t in_)

/-- `Config.RunUpdateQueryTranslators` as written in `sqldb-updateSchema.go`
lines 124-130.  The named return `out` starts at Go's zero value `""` and is
only ever assigned `t(in)`. -/
def RunUpdateQueryTranslators_updateSchemaFile (ts : List (GoStr → GoStr)) (in_ : GoStr) : GoStr :=
  runUpdateQueryTranslatorsAuxUS in_ ts []

/-!
## Error handlers and classifier chains

Driver errors are modelled by their message text (`GoStr`), which is all the
handlers inspect (`err.Error()`); a nil Go error is `none : Option GoStr`.
-/

inductive dbType
  | mysql
  | mariadb
  | sqlite
  | mssql
deriving DecidableEq

/-- The slice of `Config` that the error handlers consult: its `Type` field
(`c.Type == DBTypeSQLite`).  `Type` is reserved in Lean, hence `dbtype`. -/
structure Config where
  dbtype : dbType
deriving DecidableEq

/-- `UFAddDuplicateColumn` (`part_016` lines 209-219, same text in
`sqldb-updateSchema.go` and `todo.go`). -/
def UFAddDuplicateColumn (_c : Config) (query err : GoStr) : Bool :=
  let addCol := goContains (goToUpper query) (gs "ADD COLUMN")
  let dup := goContains (goToLower err) (gs "duplicate column")
  addCol && dup

/-- `UFDropUnknownColumn` (`part_016` lines 224-239). -/
def UFDropUnknownColumn (_c : Config) (query err : GoStr) : Bool :=
  let dropCol := goContains (goToUpper query) (gs "DROP COLUMN")
  let unknownM := goContains (goToLower err) (gs "check that it exists")
  let unknownS := goContains (goToLower err) (gs "no such column")
  dropCol && (unknownM || unknownS)

/-- `UFModifySQLiteColumn` (`part_016` lines 249-257): statement keyword and
config type only — the error text is never inspected. -/
def UFModifySQLiteColumn (c : Config) (query _err : GoStr) : Bool :=
  goContains (goToUpper query) (gs "MODIFY COLUMN") && (c.dbtype == dbType.sqlite)

/-- `UFIndexAlreadyExists` (`part_016` lines 262-277). -/
def UFIndexAlreadyExists (_c : Config) (query err : GoStr) : Bool :=
  let createInx := goContains (goToUpper query) (gs "CREATE INDEX")
  let existsM := goContains (goToLower err) (gs "duplicate key name")
  let existsS := goContains (goToLower err) (gs "already exists")
  createInx && (existsM || existsS)

/-- `UFAlreadyExists` (`part_016` lines 491-498): message text only — the
query is never inspected. -/
def UFAlreadyExists (_c : Config) (_query err : GoStr) : Bool :=
  goContains err (gs "already exists")

/-- `IgnoreErrorDuplicateColumn` (`part_002` lines 36-42). -/
def IgnoreErrorDuplicateColumn (query err : GoStr) : Bool :=
  goContains (goToUpper query) (gs "ADD COLUMN") &&
    goContains (goToLower err) (gs "duplicate column")

/-- `IgnoreErrorDropColumn` (`part_002` lines 50-66). -/
def IgnoreErrorDropColumn (query err : GoStr) : Bool :=
  if !(goContains (goToUpper query) (gs "DROP COLUMN")) then false
  else if goContains err (gs "Error 1091") && goContains err (gs "check that it exists") then true
  else if goContains err (gs "no such column") then true
  else false

/-- `IgnoreErrorSQLiteModify` (`part_002` lines 156-163): returns true for
ANY error as soon as the query contains `MODIFY COLUMN`. -/
def IgnoreErrorSQLiteModify (query _err : GoStr) : Bool :=
  goContains query (gs "MODIFY COLUMN")

/-- `IgnoreErrorTableDoesNotExist` (`part_002` lines 117-129): message text
only — the query is never inspected. -/
def IgnoreErrorTableDoesNotExist (_query err : GoStr) : Bool :=
  if goContains err (gs "Error 1146") && goContains err (gs "Table") &&
      goContains err (gs "doesn't exist") then true
  else if goContains err (gs "no such table") then true
  else false

/-- The handler loop shared, textually, by `runDeployQueryErrorHandlers`
(`schema-deploy.go` lines 238-243) and `runUpdateQueryErrorHandlers`
(`part_003` lines 184-189): first handler returning true wins. -/
def runErrorHandlerLoop (query err : GoStr) : List (GoStr → GoStr → Bool) → Bool
  | [] => false
  | eh :: rest => if eh query err then true else runErrorHandlerLoop query err rest

/-- `Config.runDeployQueryErrorHandlers` (`schema-deploy.go` lines 231-246). -/
def runDeployQueryErrorHandlers (handlers : List (GoStr → GoStr → Bool))
    (query : GoStr) (err : Option GoStr) : Bool :=
  match err with
  | none => true
  | some e => runErrorHandlerLoop query e handlers

/-- `Config.runUpdateQueryErrorHandlers` (`part_003` lines 177-192, same text
in `sqldb-updateSchema.go` lines 134-149). -/
def runUpdateQueryErrorHandlers (handlers : List (GoStr → GoStr → Bool))
    (query : GoStr) (err : Option GoStr) : Bool :=
  match err with
  | none => true
  | some e => runErrorHandlerLoop query e handlers

/-- The `UpdateIgnoreErrorFuncs` loop of `Config.ignoreUpdateSchemaErrors`
(`part_016` lines 187-192): handlers here also receive the `Config`. -/
def ignoreUpdateSchemaErrorsLoop (cfg : Config) (query err : GoStr) :
    List (Config → GoStr → GoStr → Bool) → Bool
  | [] => false
  | f :: rest => if f cfg query err then true else ignoreUpdateSchemaErrorsLoop cfg query err rest

/-- `Config.ignoreUpdateSchemaErrors` (`part_016` lines 178-195). -/
def ignoreUpdateSchemaErrors (cfg : Config)
    (handlers : List (Config → GoStr → GoStr → Bool))
    (query : GoStr) (err : Option GoStr) : Bool :=
  match err with
  | none => true
  | some e => ignoreUpdateSchemaErrorsLoop cfg query e handlers

/-!
## Update orchestrators

The database and a transaction over it are modelled semantically: `SqlDB σ`
holds the observable (committed) schema state over an abstract state type
`σ`; a transaction `Tx σ` carries a working copy that becomes observable only
on commit.  The driver's statement execution is a parameter
`exec : GoStr → σ → Except GoStr σ` (the error being the message the
handlers inspect); connection, validation, begin and commit failures of the
driver are supplied as `Option GoStr` parameters, since they are driver
outcomes, not logic of the package.
-/

structure SqlDB (σ : Type) where
  committed : σ
deriving DecidableEq

structure Tx (σ : Type) where
  work : σ
deriving DecidableEq

/-- `connection.Beginx()` (`part_016` line 74): the transaction's working
state starts from the committed state. -/
def beginx {σ : Type} (db : SqlDB σ) : Tx σ := ⟨db.committed⟩

/-- `tx.Exec(q)`: a successful statement updates the working state only; a
failed one leaves it unchanged and reports the driver error. -/
def txExec {σ : Type} (exec : GoStr → σ → Except GoStr σ) (tx : Tx σ) (q : GoStr) :
    Except GoStr (Tx σ) :=
  match exec q tx.work with
  | .ok w => .ok ⟨w⟩
  | .error e => .error e

/-- `tx.Commit()`: the working state becomes the observable state. -/
def txCommit {σ : Type} (tx : Tx σ) : SqlDB σ := ⟨tx.work⟩

/-- The deferred `tx.Rollback()`: the working state is discarded, the
committed state untouched. -/
def txRollback {σ : Type} (db : SqlDB σ) (_tx : Tx σ) : SqlDB σ := db

structure UpdateOutcome (σ : Type) where
  err : Option GoStr
  db : SqlDB σ
deriving DecidableEq

/-- The UpdateQueries loop of `part_016`'s `UpdateSchemaWithOps` (lines
83-107): translate the query, execute it on the transaction, and on a driver
error consult `ignoreUpdateSchemaErrors`; a non-ignored error aborts the
loop. -/
def updateQueriesTx {σ : Type} (exec : GoStr → σ → Except GoStr σ) (tr : GoStr → GoStr)
    (cfg : Config) (handlers : List (Config → GoStr → GoStr → Bool)) :
    List GoStr → Tx σ → Except GoStr (Tx σ)
  | [], tx => .ok tx
  | q0 :: rest, tx =>
    let q := tr q0
    match txExec exec tx q with
    | .ok tx2 => updateQueriesTx exec tr cfg handlers rest tx2
    | .error innerErr =>
      if ignoreUpdateSchemaErrors cfg handlers q (some innerErr) then
        updateQueriesTx exec tr cfg handlers rest tx
      else .error innerErr

/-- The UpdateFuncs loop of `part_016` (lines 112-129): every `UpdateFunc`
receives the transaction; any failure aborts. -/
def updateFuncsTx {σ : Type} : List (σ → Except GoStr σ) → Tx σ → Except GoStr (Tx σ)
  | [], tx => .ok tx
  | f :: rest, tx =>
    match f tx.work with
    | .ok w => updateFuncsTx rest ⟨w⟩
    | .error e => .error e

/-- `Config.UpdateSchemaWithOps` of `part_016` lines 44-147: connect if
needed, validate, begin one transaction (`defer tx.Rollback()`), run every
UpdateQuery and then every UpdateFunc against the transaction, and commit
only after all of them succeeded.  Every error path returns with the
deferred rollback applied. -/
def UpdateSchemaWithOps_tx {σ : Type}
    (connectErr validateErr beginErr commitErr : Option GoStr)
    (cfg : Config) (handlers : List (Config → GoStr → GoStr → Bool))
    (tr : GoStr → GoStr) (exec : GoStr → σ → Except GoStr σ)
    (queries : List GoStr) (funcs : List (σ → Except GoStr σ))
    (db : SqlDB σ) : UpdateOutcome σ :=
  match connectErr with
  | some e => ⟨some e, db⟩
  | none =>
  match validateErr with
  | some e => ⟨some e, db⟩
  | none =>
  match beginErr with
  | some e => ⟨some e, db⟩
  | none =>
  match updateQueriesTx exec tr cfg handlers queries (beginx db) with
  | .error e => ⟨some e, txRollback db (beginx db)⟩
  | .ok tx2 =>
  match updateFuncsTx funcs tx2 with
  | .error e => ⟨some e, txRollback db tx2⟩
  | .ok tx3 =>
  match commitErr with
  | some e => ⟨some e, txRollback db tx3⟩
  | none => ⟨none, txCommit tx3⟩

/-- The UpdateQueries loop of `sqldb-updateSchema.go`'s `UpdateSchemaWithOps`
(lines 69-88): `connection.Exec(q)` applies each statement directly to the
observable database state — no transaction exists in this variant.  The
queries are translated with the `RunUpdateQueryTranslators` of the same
file.  An aborting error reports the state reached so far. -/
def updateQueriesNoTx {σ : Type} (exec : GoStr → σ → Except GoStr σ)
    (ts : List (GoStr → GoStr)) (handlers : List (GoStr → GoStr → Bool)) :
    List GoStr → SqlDB σ → Except (GoStr × SqlDB σ) (SqlDB σ)
  | [], db => .ok db
  | q0 :: rest, db =>
    let q := RunUpdateQueryTranslators_updateSchemaFile ts q0
    match exec q db.committed with
    | .ok w => updateQueriesNoTx exec ts handlers rest ⟨w⟩
    | .error innerErr =>
      if runUpdateQueryErrorHandlers handlers q (some innerErr) then
        updateQueriesNoTx exec ts handlers rest db
      else .error (innerErr, db)

/-- The UpdateFuncs loop of `sqldb-updateSchema.go` (lines 93-108): funcs
receive the plain connection. -/
def updateFuncsNoTx {σ : Type} :
    List (σ → Except GoStr σ) → SqlDB σ → Except (GoStr × SqlDB σ) (SqlDB σ)
  | [], db => .ok db
  | f :: rest, db =>
    match f db.committed with
    | .ok w => updateFuncsNoTx rest ⟨w⟩
    | .error e => .error (e, db)

/-- `Config.UpdateSchemaWithOps` as written in `sqldb-updateSchema.go` lines
38-120 (and `Config.UpdateSchema` of `part_003` lines 33-131, which has the
same statement-execution shape): no transaction is opened, so statements
already executed stay applied when a later one fails. -/
def UpdateSchemaWithOps_noTx {σ : Type}
    (connectErr validateErr : Option GoStr)
    (handlers : List (GoStr → GoStr → Bool)) (ts : List (GoStr → GoStr))
    (exec : GoStr → σ → Except GoStr σ)
    (queries : List GoStr) (funcs : List (σ → Except GoStr σ))
    (db : SqlDB σ) : UpdateOutcome σ :=
  match connectErr with
  | some e => ⟨some e, db⟩
  | none =>
  match validateErr with
  | some e => ⟨some e, db⟩
  | none =>
  match updateQueriesNoTx exec ts handlers queries db with
  | .error (e, db2) => ⟨some e, db2⟩
  | .ok db2 =>
  match updateFuncsNoTx funcs db2 with
  | .error (e, db3) => ⟨some e, db3⟩
  | .ok db3 => ⟨none, db3⟩

/-!
## Occurrences: specification of `goIndexOf?`/`goContains`
-/

/-- `sub` occurs in `s` at index `i` (contiguous substring starting at `i`). -/
def goOccursAt (sub s : GoStr) (i : Nat) : Prop := sub <+: s.drop i

/-- Side conditions on a (keyword, replacement) pair under which the erase
loop is well behaved; `decide` verifies them for (VARCHAR, TEXT) and
(DECIMAL, REAL). -/
def eraseOK (sf sw : GoStr) : Prop :=
  sf ≠ [] ∧ sw ≠ [] ∧ ')' ∉ sf ∧ sw.length ≤ sf.length ∧
    (∀ c ∈ sw.take 1, c ∉ sf) ∧ (∀ c ∈ sf.take 1, c ∉ sw.tail)

/-- Every occurrence of `sf` in `q` is followed by a closing parenthesis (at
or after the occurrence's start; the first `sf.length` characters there are
`sf` itself, which contains no parenthesis for the pairs of interest). -/
def parenAfter (sf q : GoStr) : Prop :=
  ∀ i, goOccursAt sf q i → ∃ j, i ≤ j ∧ q[j]? = some ')'

/-- Executable sufficient condition for `parenAfter`. -/
def parenAfterB (sf q : GoStr) : Bool :=
  (List.range q.length).all fun i =>
    !(sf.isPrefixOf (q.drop i)) || (q.drop i).any (fun c => c == ')')

/-!
## Concrete statements named by the claims
-/

/-- The concrete CREATE TABLE scenario statement of spec section 8. -/
def c4Input : GoStr := gs "CREATE TABLE users (ID INT NOT NULL AUTO_INCREMENT, Name VARCHAR(50) NOT NULL, Created DATETIME DEFAULT UTC_TIMESTAMP, PRIMARY KEY(ID))"

/-- The output the spec claims for `c4Input` (no space before the final
parenthesis). -/
def c4SpecOutput : GoStr := gs "CREATE TABLE users (ID INTEGER PRIMARY KEY AUTOINCREMENT NOT NULL, Name TEXT NOT NULL, Created TEXT DEFAULT CURRENT_TIMESTAMP)"

/-- What `TranslateMariaDBToSQLite` actually produces for `c4Input`: the
space that stood between the removed comma and the removed
`PRIMARY KEY(ID)` clause remains before the closing parenthesis. -/
def c4ActualOutput : GoStr := gs "CREATE TABLE users (ID INTEGER PRIMARY KEY AUTOINCREMENT NOT NULL, Name TEXT NOT NULL, Created TEXT DEFAULT CURRENT_TIMESTAMP )"

/-- The comma-fixup fragment of spec section 8. -/
def c9Fragment : GoStr := gs "..., colB TEXT,\n\tPRIMARY KEY(ID)\n)"

/-- The expected comma-fixup result. -/
def c9Expected : GoStr := gs "..., colB TEXT\n\t\n)"

/-- A CREATE TABLE statement with a DATETIME column. -/
def c7Input : GoStr := gs "CREATE TABLE t (Created DATETIME)"

example : goIndexOf? (gs "abcabc") (gs "bc") = some 1 := by decide

example : goLastIndexOf? (gs "abcabc") (gs "bc") = some 4 := by decide

example : goIndex (gs "abc") (gs "zz") = -1 := by decide

example : goContains (gs "hello world") (gs "o w") = true := by decide

example : goReplace1 (gs "aXbXc") (gs "X") (gs "YY") = gs "aYYbXc" := by decide

example : goReplace1 (gs "abc") ([] : GoStr) (gs "Z") = gs "Zabc" := by decide

example : goReplaceAll (gs "aXbXc") (gs "X") (gs "YY") = gs "aYYbYYc" := by decide

example : goReplaceAll (gs "abc") ([] : GoStr) (gs "-") = gs "-a-b-c-" := by decide

example : goToUpper (gs "add Column x") = gs "ADD COLUMN X" := by decide

example : goSliceTo (gs "abc") (-1) = none := by decide

example : goSliceTo (gs "abc") 2 = some (gs "ab") := by decide

example : goSliceFrom (gs "abc") 1 = some (gs "bc") := by decide

example : RunUpdateQueryTranslators_updateSchemaFile [] (gs "q") = [] := by decide

example : RunDeployQueryTranslators [] (gs "q") = gs "q" := by decide

example : IgnoreErrorSQLiteModify (gs "ALTER TABLE t MODIFY COLUMN c INT") (gs "disk full") = true := by decide

example : UFAddDuplicateColumn ⟨dbType.sqlite⟩ (gs "alter table t add column c") (gs "Duplicate Column c") = true := by decide

theorem goIndexOf?_sound {s sub : GoStr} {i : Nat} (h : goIndexOf? s sub = some i) :
    goOccursAt sub s i := by
  induction s generalizing i with
  | nil =>
    unfold goIndexOf? at h
    split at h
    · next hp =>
      injection h with h
      subst h
      exact List.isPrefixOf_iff_prefix.mp hp
    · cases h
  | cons c t ih =>
    unfold goIndexOf? at h
    split at h
    · next hp =>
      injection h with h
      subst h
      exact List.isPrefixOf_iff_prefix.mp hp
    · rcases Option.map_eq_some'.mp h with ⟨i', hi', rfl⟩
      simpa [goOccursAt] using ih hi'

theorem goIndexOf?_min {s sub : GoStr} {i : Nat} (h : goIndexOf? s sub = some i)
    {j : Nat} (hj : goOccursAt sub s j) : i ≤ j := by
  induction s generalizing i j with
  | nil =>
    unfold goIndexOf? at h
    split at h
    · injection h with h
      omega
    · cases h
  | cons c t ih =>
    unfold goIndexOf? at h
    split at h
    · injection h with h
      omega
    · next hp =>
      rcases Option.map_eq_some'.mp h with ⟨i', hi', rfl⟩
      cases j with
      | zero =>
        exact absurd (List.isPrefixOf_iff_prefix.mpr (by simpa [goOccursAt] using hj)) hp
      | succ j' =>
        have := ih hi' (j := j') (by simpa [goOccursAt] using hj)
        omega

theorem goIndexOf?_isSome {s sub : GoStr} {j : Nat} (hj : goOccursAt sub s j) :
    (goIndexOf? s sub).isSome := by
  induction s generalizing j with
  | nil =>
    have hsub : sub = [] := List.prefix_nil.mp (by simpa [goOccursAt] using hj)
    subst hsub
    simp [goIndexOf?, List.isPrefixOf]
  | cons c t ih =>
    unfold goIndexOf?
    split
    · simp
    · next hp =>
      cases j with
      | zero =>
        exact absurd (List.isPrefixOf_iff_prefix.mpr (by simpa [goOccursAt] using hj)) hp
      | succ j' =>
        have := ih (j := j') (by simpa [goOccursAt] using hj)
        simpa using this

theorem goContains_iff {s sub : GoStr} :
    goContains s sub = true ↔ ∃ j, goOccursAt sub s j := by
  constructor
  · intro h
    rcases Option.isSome_iff_exists.mp h with ⟨i, hi⟩
    exact ⟨i, goIndexOf?_sound hi⟩
  · rintro ⟨j, hj⟩
    exact goIndexOf?_isSome hj

theorem goIndexOf?_le_length {s sub : GoStr} {i : Nat} (h : goIndexOf? s sub = some i) :
    i ≤ s.length := by
  induction s generalizing i with
  | nil =>
    unfold goIndexOf? at h
    split at h
    · injection h with h
      omega
    · cases h
  | cons c t ih =>
    unfold goIndexOf? at h
    split at h
    · injection h with h
      omega
    · rcases Option.map_eq_some'.mp h with ⟨i', hi', rfl⟩
      have := ih hi'
      simp
      omega

theorem goIndexOf?_add_length_le {s sub : GoStr} {i : Nat}
    (h : goIndexOf? s sub = some i) : i + sub.length ≤ s.length := by
  have h1 := (goIndexOf?_sound h).length_le
  have h2 := goIndexOf?_le_length h
  rw [List.length_drop] at h1
  omega

theorem goOccursAt_append_right {sub b : GoStr} (a : GoStr) {i : Nat}
    (h : goOccursAt sub b i) : goOccursAt sub (a ++ b) (a.length + i) := by
  simpa [goOccursAt, List.drop_append] using h

theorem goOccursAt_of_take {sub s : GoStr} {n i : Nat}
    (h : goOccursAt sub (s.take n) i) : goOccursAt sub s i := by
  simp only [goOccursAt, List.drop_take] at h
  exact h.trans (List.take_prefix _ _)

theorem goOccursAt_of_drop {sub q : GoStr} {d i : Nat}
    (h : goOccursAt sub (q.drop d) i) : goOccursAt sub q (d + i) := by
  simp only [goOccursAt, List.drop_drop] at h ⊢
  exact h

theorem goOccursAt_getElem? {sub s : GoStr} {i j : Nat} (h : goOccursAt sub s i)
    (hj : j < sub.length) : s[i + j]? = sub[j]? := by
  rcases h with ⟨t, ht⟩
  rw [← List.getElem?_drop, ← ht, List.getElem?_append, if_pos hj]

theorem singleton_prefix_iff {c : Char} {l : GoStr} : [c] <+: l ↔ l[0]? = some c := by
  constructor
  · rintro ⟨t, ht⟩
    rw [← ht]
    simp
  · intro h
    cases l with
    | nil => simp at h
    | cons a l' =>
      simp only [List.getElem?_cons_zero, Option.some.injEq] at h
      exact ⟨l', by rw [h]; rfl⟩

theorem prefix_append_of_length_le {k a c : GoStr} (h : k <+: a ++ c)
    (hl : k.length ≤ a.length) : k <+: a := by
  rw [List.prefix_iff_eq_take] at h ⊢
  rw [List.take_append_eq_append_take, Nat.sub_eq_zero_of_le hl] at h
  simpa using h

theorem goOccursAt_append_elim_left {k a c : GoStr} {p : Nat}
    (h : goOccursAt k (a ++ c) p) (hl : p + k.length ≤ a.length) :
    goOccursAt k a p := by
  simp only [goOccursAt, List.drop_append_eq_append_drop] at h
  have := prefix_append_of_length_le (a := a.drop p) (c := (c.drop (p - a.length))) h ?_
  · exact this
  · rw [List.length_drop]
    omega

theorem goOccursAt_append_elim_right {k u b : GoStr} {p : Nat}
    (h : goOccursAt k (u ++ b) p) (hp : u.length ≤ p) :
    goOccursAt k b (p - u.length) := by
  simp only [goOccursAt, List.drop_append_eq_append_drop] at h
  rwa [List.drop_eq_nil_of_le hp, List.nil_append] at h

/-- Junction lemma: if the first character of `r` does not occur in `k`, and
the first character of `k` does not occur in the tail of `r`, then every
occurrence of `k` in `A ++ r ++ B` lies entirely inside `A` or entirely to
the right of `r`. -/
theorem goOccursAt_middle_cases {k r A B : GoStr} {p : Nat}
    (hk : k ≠ []) (hr : r ≠ [])
    (hheadr : ∀ c, r[0]? = some c → c ∉ k)
    (hheadk : ∀ c, k[0]? = some c → c ∉ r.tail)
    (hocc : goOccursAt k (A ++ (r ++ B)) p) :
    p + k.length ≤ A.length ∨ A.length + r.length ≤ p := by
  by_contra hcon
  push_neg at hcon
  obtain ⟨h1, h2⟩ := hcon
  have hklen : 0 < k.length := List.length_pos.mpr hk
  have hrlen : 0 < r.length := List.length_pos.mpr hr
  rcases le_or_lt p A.length with hp | hp
  · -- the occurrence covers position `A.length`, which holds the head of `r`
    obtain ⟨rh, hrh⟩ : ∃ c, r[0]? = some c := by
      cases r with
      | nil => exact absurd rfl hr
      | cons x xs => exact ⟨x, by simp⟩
    have hs : (A ++ (r ++ B))[A.length]? = some rh := by
      rw [List.getElem?_append_right (Nat.le_refl _), Nat.sub_self,
        List.getElem?_append, if_pos hrlen]
      exact hrh
    have hwin : A.length - p < k.length := by omega
    have hchar := goOccursAt_getElem? hocc hwin
    rw [show p + (A.length - p) = A.length by omega, hs] at hchar
    exact hheadr rh hrh (List.getElem?_mem hchar.symm)
  · -- the occurrence starts strictly inside `r`, past its head
    obtain ⟨kh, hkh⟩ : ∃ c, k[0]? = some c := by
      cases k with
      | nil => exact absurd rfl hk
      | cons x xs => exact ⟨x, by simp⟩
    have hchar := goOccursAt_getElem? hocc hklen
    rw [Nat.add_zero, hkh] at hchar
    have hsplit : (A ++ (r ++ B))[p]? = r[p - A.length]? := by
      rw [List.getElem?_append_right (by omega), List.getElem?_append,
        if_pos (by omega)]
    rw [hsplit] at hchar
    have hmem : kh ∈ r.tail := by
      cases r with
      | nil => exact absurd rfl hr
      | cons x xs =>
        have hge : 1 ≤ p - A.length := by omega
        obtain ⟨m, hm⟩ : ∃ m, p - A.length = m + 1 := ⟨p - A.length - 1, by omega⟩
        rw [hm, List.getElem?_cons_succ] at hchar
        exact List.getElem?_mem hchar
    exact hheadk kh hkh hmem

/-!
## Termination analysis of the width-bearing type erasure loops
-/

theorem gs_close_paren : gs ")" = [')'] := by decide

/-- One iteration of the erase loop, on a string in which the keyword occurs
and every occurrence is followed by `)`: the string gets strictly shorter and
the property is preserved. -/
theorem typeEraseStep_spec {sf sw q : GoStr} (hok : eraseOK sf sw)
    (hc : goContains q sf = true) (hp : parenAfter sf q) :
    (typeEraseStep sf sw q).length < q.length ∧
      parenAfter sf (typeEraseStep sf sw q) := by
  obtain ⟨hsf, hsw, hparsf, hlen, hswtake, hsftake⟩ := hok
  have hsflen : 0 < sf.length := List.length_pos.mpr hsf
  have hswlen : 0 < sw.length := List.length_pos.mpr hsw
  obtain ⟨start, hstart⟩ := Option.isSome_iff_exists.mp hc
  have hocc : goOccursAt sf q start := goIndexOf?_sound hstart
  have hmin : ∀ j, goOccursAt sf q j → start ≤ j := fun j hj => goIndexOf?_min hstart hj
  have hstart_le : start + sf.length ≤ q.length := goIndexOf?_add_length_le hstart
  obtain ⟨jp, hjp_ge, hjp⟩ := hp start hocc
  have hoccp : goOccursAt (gs ")") (q.drop start) (jp - start) := by
    simp only [goOccursAt, List.drop_drop, gs_close_paren]
    rw [show start + (jp - start) = jp from by omega]
    exact singleton_prefix_iff.mpr (by rw [List.getElem?_drop, Nat.add_zero]; exact hjp)
  obtain ⟨m, hm⟩ := Option.isSome_iff_exists.mp (goIndexOf?_isSome hoccp)
  have hm_sound := goIndexOf?_sound hm
  have hm_char : (q.drop start)[m]? = some ')' := by
    have h0 := goOccursAt_getElem? hm_sound (show 0 < (gs ")").length by decide)
    rw [Nat.add_zero] at h0
    rw [h0, gs_close_paren]
    rfl
  have hm_lt : m < q.length - start := by
    rcases List.getElem?_eq_some.mp hm_char with ⟨hlt, _⟩
    simpa [List.length_drop] using hlt
  have hm_ge : sf.length ≤ m := by
    by_contra hlt'
    push_neg at hlt'
    have h2 : (q.drop start)[m]? = sf[m]? := by
      rw [List.getElem?_drop]
      exact goOccursAt_getElem? hocc hlt'
    rw [hm_char] at h2
    exact hparsf (List.getElem?_mem h2.symm)
  have hsf_pre_defn : sf <+: (q.drop start).take (m + 1) :=
    List.prefix_take_iff.mpr ⟨hocc, by omega⟩
  have hdefn_occ : goOccursAt ((q.drop start).take (m + 1)) q start := List.take_prefix _ _
  have hdefn_len : ((q.drop start).take (m + 1)).length = m + 1 := by
    rw [List.length_take, List.length_drop]
    omega
  have hidx : goIndexOf? q ((q.drop start).take (m + 1)) = some start := by
    obtain ⟨i0, hi0⟩ := Option.isSome_iff_exists.mp (goIndexOf?_isSome hdefn_occ)
    have hi0_le : i0 ≤ start := goIndexOf?_min hi0 hdefn_occ
    have hge : start ≤ i0 := hmin i0 (hsf_pre_defn.trans (goIndexOf?_sound hi0))
    rw [hi0, show i0 = start from by omega]
  have hstep : typeEraseStep sf sw q =
      q.take start ++ sw ++ q.drop (start + (m + 1)) := by
    unfold typeEraseStep
    rw [hstart]
    simp only [hm]
    rw [show m + 1 + start - start = m + 1 from by omega]
    unfold goReplace1
    simp only [hidx]
    rw [hdefn_len]
  have hAlen : (q.take start).length = start := by
    rw [List.length_take]
    omega
  constructor
  · rw [hstep]
    simp only [List.length_append, List.length_take, List.length_drop]
    omega
  · rw [hstep]
    intro p hocc'
    have hocc'' : goOccursAt sf ((q.take start) ++ (sw ++ (q.drop (start + (m + 1))))) p := by
      simpa [List.append_assoc] using hocc'
    have hheadr : ∀ c, sw[0]? = some c → c ∉ sf := by
      intro c hcg
      apply hswtake
      cases sw with
      | nil => simp at hcg
      | cons x xs =>
        simp only [List.getElem?_cons_zero, Option.some.injEq] at hcg
        subst hcg
        simp
    have hheadk : ∀ c, sf[0]? = some c → c ∉ sw.tail := by
      intro c hcg
      apply hsftake
      cases sf with
      | nil => simp at hcg
      | cons x xs =>
        simp only [List.getElem?_cons_zero, Option.some.injEq] at hcg
        subst hcg
        simp
    rcases goOccursAt_middle_cases hsf hsw hheadr hheadk hocc'' with hL | hR
    · exfalso
      rw [hAlen] at hL
      have hinA : goOccursAt sf (q.take start) p :=
        goOccursAt_append_elim_left hocc'' (by omega)
      have : start ≤ p := hmin p (goOccursAt_of_take hinA)
      omega
    · rw [hAlen] at hR
      have habs_len : (q.take start ++ sw).length = start + sw.length := by
        rw [List.length_append, hAlen]
      have hoccB : goOccursAt sf (q.drop (start + (m + 1))) (p - (start + sw.length)) := by
        have := goOccursAt_append_elim_right (u := q.take start ++ sw) hocc' (by rw [habs_len]; omega)
        rwa [habs_len] at this
      have hoccq : goOccursAt sf q ((start + (m + 1)) + (p - (start + sw.length))) :=
        goOccursAt_of_drop hoccB
      obtain ⟨j, hj_ge, hj_char⟩ := hp _ hoccq
      refine ⟨(j - (start + (m + 1))) + (start + sw.length), by omega, ?_⟩
      rw [List.getElem?_append_right (by rw [habs_len]; omega), habs_len,
        List.getElem?_drop]
      rw [show (start + (m + 1)) + ((j - (start + (m + 1)) + (start + sw.length)) -
        (start + sw.length)) = j from by omega]
      exact hj_char

/-- With enough fuel (the string's length suffices), the erase loop
terminates on any string whose keyword occurrences are all followed by a
closing parenthesis. -/
theorem typeEraseLoop_isSome {sf sw : GoStr} (hok : eraseOK sf sw) :
    ∀ fuel q, parenAfter sf q → q.length ≤ fuel →
      ∃ r, typeEraseLoop sf sw fuel q = some r := by
  intro fuel
  induction fuel with
  | zero =>
    intro q hp hl
    have hq : q = [] := List.eq_nil_of_length_eq_zero (by omega)
    subst hq
    have hnc : goContains ([] : GoStr) sf = false := by
      obtain ⟨hsf, -⟩ := hok
      cases sf with
      | nil => exact absurd rfl hsf
      | cons x xs => simp [goContains, goIndexOf?, List.isPrefixOf]
    exact ⟨[], by simp [typeEraseLoop, hnc]⟩
  | succ n ih =>
    intro q hp hl
    unfold typeEraseLoop
    by_cases hc : goContains q sf = true
    · rw [if_pos hc]
      obtain ⟨hlt, hp'⟩ := typeEraseStep_spec hok hc hp
      exact ih _ hp' (by omega)
    · rw [if_neg hc]
      exact ⟨q, rfl⟩

/-- Whenever the erase loop terminates (returns `some`), the keyword no
longer occurs in the result. -/
theorem typeEraseLoop_erases {sf sw : GoStr} :
    ∀ fuel q r, typeEraseLoop sf sw fuel q = some r → goContains r sf = false := by
  intro fuel
  induction fuel with
  | zero =>
    intro q r h
    unfold typeEraseLoop at h
    split at h
    · cases h
    · next hc =>
      injection h with h
      subst h
      exact Bool.not_eq_true _ |>.mp hc
  | succ n ih =>
    intro q r h
    unfold typeEraseLoop at h
    split at h
    · exact ih _ _ h
    · next hc =>
      injection h with h
      subst h
      exact Bool.not_eq_true _ |>.mp hc

/-- On a string that contains the keyword but no `)`, one loop iteration
just prepends the replacement text (Go's `strings.Index` returns `-1`, the
span becomes empty, and `strings.Replace` with an empty pattern inserts at
the front). -/
theorem typeEraseStep_no_paren {sf sw q : GoStr} (hc : goContains q sf = true)
    (hnp : ')' ∉ q) : typeEraseStep sf sw q = sw ++ q := by
  obtain ⟨start, hstart⟩ := Option.isSome_iff_exists.mp hc
  have hnone : goIndexOf? (q.drop start) (gs ")") = none := by
    by_contra hne
    obtain ⟨m, hm⟩ := Option.ne_none_iff_exists'.mp hne
    have h0 := goOccursAt_getElem? (goIndexOf?_sound hm)
      (show 0 < (gs ")").length by decide)
    rw [Nat.add_zero, show (gs ")")[0]? = some ')' from by decide] at h0
    exact hnp (List.mem_of_mem_drop (List.getElem?_mem h0))
  have hempty : goIndexOf? q ([] : GoStr) = some 0 := by
    cases q with
    | nil => decide
    | cons x xs => simp [goIndexOf?, List.isPrefixOf]
  unfold typeEraseStep
  rw [hstart]
  simp only [hnone]
  rw [Nat.sub_self, List.take_zero]
  unfold goReplace1
  simp only [hempty]
  simp

/-- On a string that contains the keyword but no closing parenthesis at all,
the erase loop never terminates: every fuel value is exhausted.  (The loop
state keeps its keyword occurrence and gains no parenthesis.) -/
theorem typeEraseLoop_no_paren_none {sf sw : GoStr} (hswnp : ')' ∉ sw) :
    ∀ fuel q, goContains q sf = true → ')' ∉ q →
      typeEraseLoop sf sw fuel q = none := by
  intro fuel
  induction fuel with
  | zero =>
    intro q hc hnp
    unfold typeEraseLoop
    rw [if_pos hc]
  | succ n ih =>
    intro q hc hnp
    unfold typeEraseLoop
    rw [if_pos hc, typeEraseStep_no_paren hc hnp]
    apply ih
    · rcases goContains_iff.mp hc with ⟨j, hj⟩
      exact goContains_iff.mpr ⟨sw.length + j, goOccursAt_append_right _ hj⟩
    · intro hmem
      rcases List.mem_append.mp hmem with h | h
      · exact hswnp h
      · exact hnp h

theorem parenAfterB_sound {sf q : GoStr} (hsf : sf ≠ []) (h : parenAfterB sf q = true) :
    parenAfter sf q := by
  intro i hocc
  by_cases hi : i < q.length
  · have hall := List.all_eq_true.mp h i (List.mem_range.mpr hi)
    have hpre : sf.isPrefixOf (q.drop i) = true := List.isPrefixOf_iff_prefix.mpr hocc
    rw [hpre] at hall
    simp only [Bool.not_true, Bool.false_or] at hall
    rcases List.any_eq_true.mp hall with ⟨c, hcmem, hcc⟩
    have hc : c = ')' := by simpa using hcc
    subst hc
    rcases List.mem_iff_getElem?.mp hcmem with ⟨m, hm⟩
    refine ⟨i + m, by omega, ?_⟩
    rw [← List.getElem?_drop]
    exact hm
  · exfalso
    have hdrop : q.drop i = [] := List.drop_eq_nil_of_le (by omega)
    rw [goOccursAt, hdrop] at hocc
    exact hsf (List.prefix_nil.mp hocc)

/-!
## Claim theorems
-/

/-- C9 (confirmed): comma-fixup correctness of primary-key clause removal.
On the fragment `..., colB TEXT,\n\tPRIMARY KEY(ID)\n)` the removal rule
deletes exactly the comma found by backward scan from the clause's index in
the original statement, then the clause text, yielding
`..., colB TEXT\n\t\n)` — one comma removed, no double comma, no trailing
comma before the closing parenthesis.  This holds both for the standalone
rule `TFMySQLToSQLiteRemovePrimaryKeyDefinition` and for
`TranslateMariaDBToSQLite`, whose other rewrites do not touch the
fragment. -/
theorem primaryKeyRemoval_comma_fixup :
    TFMySQLToSQLiteRemovePrimaryKeyDefinition c9Fragment = some c9Expected ∧
      TranslateMariaDBToSQLite c9Fragment = some c9Expected := by
  constructor
  · decide
  · decide

/-- C4 counterexample: applying `TranslateMariaDBToSQLite` to the section 8
scenario statement does NOT yield the byte-exact string the claim states;
the actual output retains one space before the final parenthesis. -/
theorem translateMariaDB_concrete_ne_spec :
    TranslateMariaDBToSQLite c4Input ≠ some c4SpecOutput := by
  decide

/-- C4 (corrected): the translation of the section 8 scenario statement is
exactly `CREATE TABLE users (ID INTEGER PRIMARY KEY AUTOINCREMENT NOT NULL,
Name TEXT NOT NULL, Created TEXT DEFAULT CURRENT_TIMESTAMP )` — identical to
the claimed string except that the space which stood between the removed
comma and the removed `PRIMARY KEY(ID)` clause remains before the closing
parenthesis. -/
theorem translateMariaDB_concrete_actual :
    TranslateMariaDBToSQLite c4Input = some c4ActualOutput := by
  decide

/-- C7 (code bug): `TFMySQLToSQLiteReformatID` in `sqldb-translators.go`
evaluates `strings.ReplaceAll(query, "DATETIME", "TEXT")` but discards the
result, so its output still contains `DATETIME` — contradicting both the
claim and the function's own comment; the sibling rule
`TFMySQLToSQLiteReformatDatetime` does erase every occurrence. -/
theorem reformatID_translators_keeps_datetime :
    TFMySQLToSQLiteReformatID_translators c7Input = some c7Input ∧
      goContains c7Input (gs "DATETIME") = true ∧
      TFMySQLToSQLiteReformatDatetime c7Input = gs "CREATE TABLE t (Created TEXT)" ∧
      goContains (TFMySQLToSQLiteReformatDatetime c7Input) (gs "DATETIME") = false := by
  refine ⟨by decide, by decide, by decide, by decide⟩

/-- C2 (code bug): chain threading.  `RunDeployQueryTranslators`
(`schema-deploy.go`) and the `RunUpdateQueryTranslators` of `part_003`
thread the output of each rule into the next — the empty chain is the
identity and a two-rule chain is composition.  The `RunUpdateQueryTranslators`
of `sqldb-updateSchema.go` instead assigns `out = t(in)` with the original
`in` every iteration: an empty chain yields the zero value `""` and a
two-rule chain applies only the second rule. -/
theorem translatorChain_threading :
    (∀ q : GoStr, RunDeployQueryTranslators [] q = q) ∧
    (∀ (t1 t2 : GoStr → GoStr) (q : GoStr),
      RunDeployQueryTranslators [t1, t2] q = t2 (t1 q)) ∧
    (∀ q : GoStr, RunUpdateQueryTranslators [] q = q) ∧
    (∀ (t1 t2 : GoStr → GoStr) (q : GoStr),
      RunUpdateQueryTranslators [t1, t2] q = t2 (t1 q)) ∧
    RunUpdateQueryTranslators_updateSchemaFile [] (gs "ALTER TABLE x") = gs "" ∧
    (∀ (t1 t2 : GoStr → GoStr) (q : GoStr),
      RunUpdateQueryTranslators_updateSchemaFile [t1, t2] q = t2 q) := by
  refine ⟨fun _ => rfl, fun _ _ _ => rfl, fun _ => rfl, fun _ _ _ => rfl, by decide,
    fun _ _ _ => rfl⟩

/-- C10 (confirmed): all three classifier runners return true for a nil
execution error, for every query and every handler chain — the handlers are
never consulted (the result does not depend on them). -/
theorem errorHandlers_nil_error_ignored :
    (∀ (hs : List (GoStr → GoStr → Bool)) (q : GoStr),
      runDeployQueryErrorHandlers hs q none = true) ∧
    (∀ (hs : List (GoStr → GoStr → Bool)) (q : GoStr),
      runUpdateQueryErrorHandlers hs q none = true) ∧
    (∀ (cfg : Config) (hs : List (Config → GoStr → GoStr → Bool)) (q : GoStr),
      ignoreUpdateSchemaErrors cfg hs q none = true) :=
  ⟨fun _ _ => rfl, fun _ _ => rfl, fun _ _ _ => rfl⟩

/-- C3 (code bug): rule totality fails.  `TFToSQLiteRemovePrimaryKeyDefinition`
(`translate.go`) slices the uninitialized named return `out` (still `""`)
and therefore panics on EVERY input — in particular it does not return a
statement lacking the trigger pattern unchanged; and the guarded variant
`TFMySQLToSQLiteRemovePrimaryKeyDefinition` panics when `PRIMARY KEY(ID)`
occurs with no comma before it (`strings.LastIndex` returns `-1`). -/
theorem removePrimaryKeyDefinition_never_returns :
    (∀ s : GoStr, TFToSQLiteRemovePrimaryKeyDefinition s = none) ∧
      TFMySQLToSQLiteRemovePrimaryKeyDefinition (gs "PRIMARY KEY(ID)") = none := by
  constructor
  · intro s
    unfold TFToSQLiteRemovePrimaryKeyDefinition
    cases h : goIndexOf? s (gs "PRIMARY KEY(ID)") with
    | none =>
      simp only [goIndex, h]
      decide
    | some i =>
      cases i with
      | zero =>
        simp only [goIndex, h]
        decide
      | succ n =>
        simp only [goIndex, h]
        have hnone : goSliceTo ([] : GoStr) ((n + 1 : Nat) : Int) = none := by
          unfold goSliceTo
          rw [if_neg]
          rintro ⟨-, h2⟩
          simp at h2
          omega
        rw [hnone]
        rfl
  · decide

theorem runErrorHandlerLoop_iff {q e : GoStr} {hs : List (GoStr → GoStr → Bool)} :
    runErrorHandlerLoop q e hs = true ↔ ∃ h ∈ hs, h q e = true := by
  induction hs with
  | nil => simp [runErrorHandlerLoop]
  | cons x xs ih =>
    unfold runErrorHandlerLoop
    by_cases hx : x q e = true
    · simp [hx]
    · simp [hx, ih]

theorem ignoreUpdateSchemaErrorsLoop_iff {cfg : Config} {q e : GoStr}
    {hs : List (Config → GoStr → GoStr → Bool)} :
    ignoreUpdateSchemaErrorsLoop cfg q e hs = true ↔ ∃ h ∈ hs, h cfg q e = true := by
  induction hs with
  | nil => simp [ignoreUpdateSchemaErrorsLoop]
  | cons x xs ih =>
    unfold ignoreUpdateSchemaErrorsLoop
    by_cases hx : x cfg q e = true
    · simp [hx]
    · simp [hx, ih]

theorem runErrorHandlerLoop_stops {q e : GoStr} {pre : List (GoStr → GoStr → Bool)}
    {h : GoStr → GoStr → Bool} (hpre : ∀ h' ∈ pre, h' q e = false) (hh : h q e = true)
    (post post' : List (GoStr → GoStr → Bool)) :
    runErrorHandlerLoop q e (pre ++ h :: post) =
      runErrorHandlerLoop q e (pre ++ h :: post') := by
  induction pre with
  | nil => simp [runErrorHandlerLoop, hh]
  | cons x xs ih =>
    have hx : x q e = false := hpre x (by simp)
    simp only [List.cons_append]
    unfold runErrorHandlerLoop
    simp only [hx]
    exact ih fun h' hm => hpre h' (by simp [hm])

/-- C6 (confirmed): the classifier runners are disjunctions over the handler
chain in order: for a non-nil error each returns true iff some handler in
the chain accepts the pair; evaluation stops at the first accepting handler
(the result does not depend on anything after it); and when no handler
accepts, the update orchestrator surfaces the execution error as its return
value. -/
theorem errorHandlerChain_disjunction :
    (∀ (hs : List (GoStr → GoStr → Bool)) (q e : GoStr),
      runDeployQueryErrorHandlers hs q (some e) = true ↔ ∃ h ∈ hs, h q e = true) ∧
    (∀ (hs : List (GoStr → GoStr → Bool)) (q e : GoStr),
      runUpdateQueryErrorHandlers hs q (some e) = true ↔ ∃ h ∈ hs, h q e = true) ∧
    (∀ (cfg : Config) (hs : List (Config → GoStr → GoStr → Bool)) (q e : GoStr),
      ignoreUpdateSchemaErrors cfg hs q (some e) = true ↔ ∃ h ∈ hs, h cfg q e = true) ∧
    (∀ (pre post post' : List (GoStr → GoStr → Bool)) (h : GoStr → GoStr → Bool)
      (q e : GoStr), (∀ h' ∈ pre, h' q e = false) → h q e = true →
      runDeployQueryErrorHandlers (pre ++ h :: post) q (some e) =
        runDeployQueryErrorHandlers (pre ++ h :: post') q (some e)) ∧
    (∀ (σ : Type) (cfg : Config) (hs : List (Config → GoStr → GoStr → Bool))
      (tr : GoStr → GoStr) (exec : GoStr → σ → Except GoStr σ) (q e : GoStr)
      (db : SqlDB σ), exec (tr q) db.committed = .error e →
      ignoreUpdateSchemaErrors cfg hs (tr q) (some e) = false →
      (UpdateSchemaWithOps_tx none none none none cfg hs tr exec [q] [] db).err =
        some e) := by
  refine ⟨fun hs q e => runErrorHandlerLoop_iff, fun hs q e => runErrorHandlerLoop_iff,
    fun cfg hs q e => ignoreUpdateSchemaErrorsLoop_iff,
    fun pre post post' h q e hpre hh => runErrorHandlerLoop_stops hpre hh post post',
    ?_⟩
  intro σ cfg hs tr exec q e db hexec hign
  simp only [UpdateSchemaWithOps_tx, updateQueriesTx, txExec, beginx, hexec, hign]
  simp

/-- Witness for `errorHandlerChain_disjunction`: the propagation and
short-circuit conjuncts applied at concrete inputs. -/
theorem errorHandlerChain_disjunction_witness :
    (UpdateSchemaWithOps_tx (σ := Nat) none none none none ⟨dbType.sqlite⟩ []
        (fun q => q) (fun q n => if q = gs "BAD" then .error (gs "boom") else .ok (n + 1))
        [gs "BAD"] [] ⟨0⟩).err = some (gs "boom") ∧
    runDeployQueryErrorHandlers
        ([fun _ _ => false] ++ (fun _ _ => true) :: [fun _ _ => false])
        (gs "q") (some (gs "e")) =
      runDeployQueryErrorHandlers ([fun _ _ => false] ++ (fun _ _ => true) :: [])
        (gs "q") (some (gs "e")) := by
  constructor
  · exact errorHandlerChain_disjunction.2.2.2.2 Nat ⟨dbType.sqlite⟩ [] (fun q => q)
      (fun q n => if q = gs "BAD" then .error (gs "boom") else .ok (n + 1))
      (gs "BAD") (gs "boom") ⟨0⟩ (by rfl) (by decide)
  · exact errorHandlerChain_disjunction.2.2.2.1 [fun _ _ => false] [fun _ _ => false] []
      (fun _ _ => true) (gs "q") (gs "e") (by simp) rfl

/-- C5 counterexample: two handlers violate internal conjunctivity.
`IgnoreErrorSQLiteModify` returns true for a query containing its trigger
keyword `MODIFY COLUMN` paired with an error message containing none of the
documented phrases (the claim requires false there), and `UFAlreadyExists`
returns true for a query containing no trigger keyword at all. -/
theorem ignoreErrorSQLiteModify_false_positive :
    IgnoreErrorSQLiteModify (gs "ALTER TABLE t MODIFY COLUMN c INT")
        (gs "unrelated driver failure") = true ∧
      UFAlreadyExists ⟨dbType.mysql⟩ (gs "SELECT 1")
        (gs "table users already exists") = true := by
  exact ⟨by decide, by decide⟩

/-- C5 (corrected): most handlers are internally conjunctive — they return
true only when the statement contains their trigger keyword AND the message
contains a matching phrase — but not all: `IgnoreErrorSQLiteModify` and
`UFModifySQLiteColumn` never inspect the error message (their result is
independent of it, and true whenever the statement-shape side holds), and
`UFAlreadyExists` and `IgnoreErrorTableDoesNotExist` never inspect the
statement. -/
theorem errorHandlers_shape :
    (∀ c q e, UFAddDuplicateColumn c q e = true →
      goContains (goToUpper q) (gs "ADD COLUMN") = true ∧
        goContains (goToLower e) (gs "duplicate column") = true) ∧
    (∀ c q e, UFDropUnknownColumn c q e = true →
      goContains (goToUpper q) (gs "DROP COLUMN") = true ∧
        (goContains (goToLower e) (gs "check that it exists") = true ∨
          goContains (goToLower e) (gs "no such column") = true)) ∧
    (∀ c q e, UFIndexAlreadyExists c q e = true →
      goContains (goToUpper q) (gs "CREATE INDEX") = true ∧
        (goContains (goToLower e) (gs "duplicate key name") = true ∨
          goContains (goToLower e) (gs "already exists") = true)) ∧
    (∀ q e, IgnoreErrorDuplicateColumn q e = true →
      goContains (goToUpper q) (gs "ADD COLUMN") = true ∧
        goContains (goToLower e) (gs "duplicate column") = true) ∧
    (∀ q e, IgnoreErrorDropColumn q e = true →
      goContains (goToUpper q) (gs "DROP COLUMN") = true ∧
        (goContains e (gs "Error 1091") = true ∧
            goContains e (gs "check that it exists") = true ∨
          goContains e (gs "no such column") = true)) ∧
    (∀ q e e', IgnoreErrorSQLiteModify q e = IgnoreErrorSQLiteModify q e') ∧
    (∀ e, IgnoreErrorSQLiteModify (gs "ALTER TABLE t MODIFY COLUMN c") e = true) ∧
    (∀ c q e e', UFModifySQLiteColumn c q e = UFModifySQLiteColumn c q e') ∧
    (∀ c c' q q' e, UFAlreadyExists c q e = UFAlreadyExists c' q' e) ∧
    (∀ q q' e, IgnoreErrorTableDoesNotExist q e = IgnoreErrorTableDoesNotExist q' e) := by
  refine ⟨?_, ?_, ?_, ?_, ?_, fun _ _ _ => rfl, fun _ => by unfold IgnoreErrorSQLiteModify; decide,
    fun _ _ _ _ => rfl, fun _ _ _ _ _ => rfl, fun _ _ _ => rfl⟩
  · intro c q e h
    simpa [UFAddDuplicateColumn, Bool.and_eq_true] using h
  · intro c q e h
    simpa [UFDropUnknownColumn, Bool.and_eq_true, Bool.or_eq_true] using h
  · intro c q e h
    simpa [UFIndexAlreadyExists, Bool.and_eq_true, Bool.or_eq_true] using h
  · intro q e h
    simpa [IgnoreErrorDuplicateColumn, Bool.and_eq_true] using h
  · intro q e h
    unfold IgnoreErrorDropColumn at h
    split at h
    · cases h
    · next h1 =>
      refine ⟨by simpa using h1, ?_⟩
      split at h
      · next h2 => exact Or.inl (by simpa [Bool.and_eq_true] using h2)
      · split at h
        · next h3 => exact Or.inr h3
        · cases h

/-- Witness for `errorHandlers_shape`: the conjunctive handlers applied at
accepting inputs. -/
theorem errorHandlers_shape_witness :
    (goContains (goToUpper (gs "alter table t add column x")) (gs "ADD COLUMN") = true ∧
      goContains (goToLower (gs "Duplicate column x")) (gs "duplicate column") = true) ∧
    (goContains (goToUpper (gs "alter table t drop column x")) (gs "DROP COLUMN") = true ∧
      (goContains (gs "Error 1091: check that it exists") (gs "Error 1091") = true ∧
          goContains (gs "Error 1091: check that it exists")
            (gs "check that it exists") = true ∨
        goContains (gs "Error 1091: check that it exists") (gs "no such column") = true)) := by
  constructor
  · exact errorHandlers_shape.1 ⟨dbType.mysql⟩ (gs "alter table t add column x")
      (gs "Duplicate column x") (by decide)
  · exact errorHandlers_shape.2.2.2.2.1 (gs "alter table t drop column x")
      (gs "Error 1091: check that it exists") (by decide)

/-- C8 counterexample: the erasure loops do not terminate on every input.
On `VARCHAR` — the keyword with no closing parenthesis after it — Go's
`strings.Index(query[start:], ")")` returns `-1`, the replaced span is
empty, and `strings.Replace` prepends `TEXT`, so the loop re-scans forever:
no fuel makes the loop return, and `TranslateMariaDBToSQLite` has no result
on this input. -/
theorem typeEraseLoop_unclosed_varchar_diverges :
    TranslateMariaDBToSQLite (gs "VARCHAR") = none ∧
      ¬ ∃ fuel r, typeEraseLoop (gs "VARCHAR") (gs "TEXT") fuel (gs "VARCHAR") = some r := by
  constructor
  · decide
  · rintro ⟨fuel, r, hr⟩
    rw [typeEraseLoop_no_paren_none (by decide) fuel (gs "VARCHAR") (by decide)
      (by decide)] at hr
    cases hr

/-- C8 (corrected): the VARCHAR and DECIMAL erasure loops of
`TranslateMariaDBToSQLite` terminate — within fuel `length + 1` — on every
input in which each occurrence of the keyword is followed by a closing
parenthesis (every well-formed width-bearing declaration), and whenever a
loop terminates its result contains no further occurrence of the keyword;
termination fails only for inputs with an unclosed keyword occurrence. -/
theorem typeEraseLoop_terminates_and_erases :
    (∀ q : GoStr, parenAfterB (gs "VARCHAR") q = true →
      ∃ r, typeEraseLoop (gs "VARCHAR") (gs "TEXT") (q.length + 1) q = some r ∧
        goContains r (gs "VARCHAR") = false) ∧
    (∀ q : GoStr, parenAfterB (gs "DECIMAL") q = true →
      ∃ r, typeEraseLoop (gs "DECIMAL") (gs "REAL") (q.length + 1) q = some r ∧
        goContains r (gs "DECIMAL") = false) ∧
    (∀ (fuel : Nat) (q r : GoStr),
      typeEraseLoop (gs "VARCHAR") (gs "TEXT") fuel q = some r →
      goContains r (gs "VARCHAR") = false) ∧
    (∀ (fuel : Nat) (q r : GoStr),
      typeEraseLoop (gs "DECIMAL") (gs "REAL") fuel q = some r →
      goContains r (gs "DECIMAL") = false) := by
  have hokV : eraseOK (gs "VARCHAR") (gs "TEXT") := by unfold eraseOK; decide
  have hokD : eraseOK (gs "DECIMAL") (gs "REAL") := by unfold eraseOK; decide
  refine ⟨?_, ?_, ?_, ?_⟩
  · intro q hq
    obtain ⟨r, hr⟩ := typeEraseLoop_isSome hokV (q.length + 1) q
      (parenAfterB_sound (by decide) hq) (by omega)
    exact ⟨r, hr, typeEraseLoop_erases _ _ _ hr⟩
  · intro q hq
    obtain ⟨r, hr⟩ := typeEraseLoop_isSome hokD (q.length + 1) q
      (parenAfterB_sound (by decide) hq) (by omega)
    exact ⟨r, hr, typeEraseLoop_erases _ _ _ hr⟩
  · intro fuel q r h
    exact typeEraseLoop_erases _ _ _ h
  · intro fuel q r h
    exact typeEraseLoop_erases _ _ _ h

/-- Witness for `typeEraseLoop_terminates_and_erases`: the section 8
round-trip statement, with `VARCHAR(255)` and `DECIMAL(10,4)` twice each. -/
theorem typeEraseLoop_terminates_and_erases_witness :
    (∃ r, typeEraseLoop (gs "VARCHAR") (gs "TEXT")
        ((gs "a VARCHAR(255), b VARCHAR(255), c DECIMAL(10,4), d DECIMAL(10,4)").length + 1)
        (gs "a VARCHAR(255), b VARCHAR(255), c DECIMAL(10,4), d DECIMAL(10,4)") = some r ∧
      goContains r (gs "VARCHAR") = false) ∧
    (∃ r, typeEraseLoop (gs "DECIMAL") (gs "REAL")
        ((gs "a VARCHAR(255), b VARCHAR(255), c DECIMAL(10,4), d DECIMAL(10,4)").length + 1)
        (gs "a VARCHAR(255), b VARCHAR(255), c DECIMAL(10,4), d DECIMAL(10,4)") = some r ∧
      goContains r (gs "DECIMAL") = false) := by
  constructor
  · exact typeEraseLoop_terminates_and_erases.1 _ (by decide)
  · exact typeEraseLoop_terminates_and_erases.2.1 _ (by decide)

/-- C1 counterexample: the `UpdateSchemaWithOps` of `sqldb-updateSchema.go`
executes statements directly on the connection, with no transaction.  Run
with two statements of which the second fails (empty handler chain, a
one-rule translator chain), it returns a non-nil error yet the first
statement's effect stays observable: the claim's "state after the call
equals the state before" is false on this input. -/
theorem updateSchemaNoTx_partial_state_observable :
    ¬ (((UpdateSchemaWithOps_noTx (σ := Nat) none none [] [fun q => q]
          (fun q n => if q = gs "BAD" then .error (gs "boom") else .ok (n + 1))
          [gs "GOOD", gs "BAD"] [] ⟨0⟩).err ≠ none) →
        (UpdateSchemaWithOps_noTx (σ := Nat) none none [] [fun q => q]
          (fun q n => if q = gs "BAD" then .error (gs "boom") else .ok (n + 1))
          [gs "GOOD", gs "BAD"] [] ⟨0⟩).db = ⟨0⟩) := by
  intro h
  have h1 : (UpdateSchemaWithOps_noTx (σ := Nat) none none [] [fun q => q]
      (fun q n => if q = gs "BAD" then .error (gs "boom") else .ok (n + 1))
      [gs "GOOD", gs "BAD"] [] ⟨0⟩) = ⟨some (gs "boom"), ⟨1⟩⟩ := by
    rfl
  rw [h1] at h
  have := h (by simp)
  simp at this

/-- C1 (corrected): atomicity holds for the transactional variant.  In
`part_016`'s `UpdateSchemaWithOps` every statement and callback executes
against the single transaction begun up front; whenever the call returns a
non-nil error — connect, validate, begin, a non-ignored statement, a
callback, or commit — the observable schema state equals the state before
the call, and a nil error implies that begin and commit succeeded and the
observable state is the fully-applied working state, committed.  (The
`sqldb-updateSchema.go` variant offers no such guarantee; see the
counterexample.) -/
theorem updateSchemaTx_atomicity {σ : Type}
    (connectErr validateErr beginErr commitErr : Option GoStr)
    (cfg : Config) (handlers : List (Config → GoStr → GoStr → Bool))
    (tr : GoStr → GoStr) (exec : GoStr → σ → Except GoStr σ)
    (queries : List GoStr) (funcs : List (σ → Except GoStr σ)) (db : SqlDB σ) :
    ((UpdateSchemaWithOps_tx connectErr validateErr beginErr commitErr cfg handlers
        tr exec queries funcs db).err ≠ none →
      (UpdateSchemaWithOps_tx connectErr validateErr beginErr commitErr cfg handlers
        tr exec queries funcs db).db = db) ∧
    ((UpdateSchemaWithOps_tx connectErr validateErr beginErr commitErr cfg handlers
        tr exec queries funcs db).err = none →
      connectErr = none ∧ validateErr = none ∧ beginErr = none ∧ commitErr = none ∧
        ∃ tx2 tx3, updateQueriesTx exec tr cfg handlers queries (beginx db) = .ok tx2 ∧
          updateFuncsTx funcs tx2 = .ok tx3 ∧
          (UpdateSchemaWithOps_tx connectErr validateErr beginErr commitErr cfg handlers
            tr exec queries funcs db).db = txCommit tx3) := by
  cases connectErr with
  | some e => exact ⟨fun _ => rfl, fun h => by simp [UpdateSchemaWithOps_tx] at h⟩
  | none =>
  cases validateErr with
  | some e => exact ⟨fun _ => rfl, fun h => by simp [UpdateSchemaWithOps_tx] at h⟩
  | none =>
  cases beginErr with
  | some e => exact ⟨fun _ => rfl, fun h => by simp [UpdateSchemaWithOps_tx] at h⟩
  | none =>
  cases hq : updateQueriesTx exec tr cfg handlers queries (beginx db) with
  | error e =>
    constructor
    · intro _
      simp [UpdateSchemaWithOps_tx, hq, txRollback]
    · intro h
      simp [UpdateSchemaWithOps_tx, hq] at h
  | ok tx2 =>
    cases hf : updateFuncsTx funcs tx2 with
    | error e =>
      constructor
      · intro _
        simp [UpdateSchemaWithOps_tx, hq, hf, txRollback]
      · intro h
        simp [UpdateSchemaWithOps_tx, hq, hf] at h
    | ok tx3 =>
      cases commitErr with
      | some e =>
        constructor
        · intro _
          simp [UpdateSchemaWithOps_tx, hq, hf, txRollback]
        · intro h
          simp [UpdateSchemaWithOps_tx, hq, hf] at h
      | none =>
        constructor
        · intro herr
          exact absurd (by simp [UpdateSchemaWithOps_tx, hq, hf]) herr
        · intro _
          exact ⟨rfl, rfl, rfl, rfl, tx2, tx3, rfl, hf, by simp [UpdateSchemaWithOps_tx, hq, hf]⟩

/-- Witness for `updateSchemaTx_atomicity`: with a failing second statement
and no handlers, the transactional variant reports the error and the
observable state is the initial one. -/
theorem updateSchemaTx_atomicity_witness :
    (UpdateSchemaWithOps_tx (σ := Nat) none none none none ⟨dbType.sqlite⟩ []
      (fun q => q) (fun q n => if q = gs "BAD" then .error (gs "boom") else .ok (n + 1))
      [gs "GOOD", gs "BAD"] [] ⟨0⟩).db = ⟨0⟩ :=
  (updateSchemaTx_atomicity none none none none ⟨dbType.sqlite⟩ []
      (fun q => q) (fun q n => if q = gs "BAD" then .error (gs "boom") else .ok (n + 1))
      [gs "GOOD", gs "BAD"] [] ⟨0⟩).1 (by decide)
